import Mathlib

/-!
Verification of the Clinkers repository (Farcaster NFT frontend + Solidity
contract).  JavaScript numbers are modelled exactly: unsigned 32-bit hash
accumulators as `Nat` reduced `% 2^32`, signed `>>` shifts through an explicit
`toInt32` conversion on `ℤ`, JS `%` as truncated remainder, and fractional
arithmetic (`hslToHex`, design-spec saturation/lightness) over `ℚ`.  Strings
are modelled as Lean `String`; the character codes fed to the hashes are the
code points, which coincide with UTF-16 code units for the ASCII data involved.
-/

set_option maxRecDepth 3000

namespace Clinkers

/-- Character codes of a string, as used by `charCodeAt` on the ASCII
inputs appearing in this development. -/
def charCodes (s : String) : List Nat := s.toList.map Char.toNat

/-- Modulus 2^32 for JS unsigned 32-bit arithmetic. -/
def U32 : Nat := 4294967296

/-- One round of `hashString` from `neynarService.ts` / the unnamed Neynar
module: `hash ^= c` followed by
`hash += (hash<<1)+(hash<<4)+(hash<<7)+(hash<<8)+(hash<<24)`.
The JS computation runs on signed int32 values; every intermediate is
congruent to the value below modulo 2^32, and the final `>>> 0` returns the
unsigned residue, so working with the residue throughout is exact. -/
def hashUpdate (h c : Nat) : Nat :=
  let x := (h ^^^ c) % U32
  (x + x * 2 + x * 16 + x * 128 + x * 256 + x * 16777216) % U32

/-- `hashString` (FNV-1a style seed derivation) from the source. -/
def hashString (s : String) : Nat :=
  (charCodes s).foldl hashUpdate 2166136261

/-- One round of the textbook 32-bit FNV-1a hash: XOR with the byte, then
multiply by the FNV prime 16777619, masked to 32 bits. -/
def fnvStep (h c : Nat) : Nat := ((h ^^^ c) % U32 * 16777619) % U32

/-- Spec-style FNV-1a-32: accumulator initialised to the offset basis
2166136261, XOR-then-multiply per character, masked to 32 bits each update. -/
def fnv1a32 (s : String) : Nat :=
  (charCodes s).foldl fnvStep 2166136261

lemma hashUpdate_eq_fnvStep (h c : Nat) : hashUpdate h c = fnvStep h c := by
  show (let x := (h ^^^ c) % U32;
    (x + x * 2 + x * 16 + x * 128 + x * 256 + x * 16777216) % U32) =
      (h ^^^ c) % U32 * 16777619 % U32
  simp only
  congr 1
  ring

lemma foldl_hashUpdate_lt (l : List Nat) (h : Nat) (hh : h < U32) :
    l.foldl hashUpdate h < U32 := by
  induction l generalizing h with
  | nil => simpa using hh
  | cons c t ih =>
    apply ih
    unfold hashUpdate
    exact Nat.mod_lt _ (by unfold U32; omega)

/-- C6: `hashString` agrees with the clean XOR-then-multiply FNV-1a-32
formulation (offset basis 2166136261, prime 16777619, masked to 32 bits after
each update), and its result always lies in [0, 2^32).  Determinism across
runs is inherent: it is a pure function of the input string. -/
theorem hashString_is_fnv1a32 (s : String) :
    hashString s = fnv1a32 s ∧ hashString s < 4294967296 := by
  constructor
  · unfold hashString fnv1a32
    have gen : ∀ (l : List Nat) (a : Nat), l.foldl hashUpdate a = l.foldl fnvStep a := by
      intro l
      induction l with
      | nil => intro a; rfl
      | cons c t ih =>
        intro a
        simp only [List.foldl_cons, hashUpdate_eq_fnvStep]
        exact ih _
    exact gen _ _
  · exact foldl_hashUpdate_lt _ _ (by unfold U32; omega)

/-! JS number semantics helpers: signed 32-bit conversion for the `>>`
operator, truncated remainder for `%`, `Math.round`, and `Math.trunc`-based
rational remainder for fractional operands. -/

/-- ToInt32 conversion applied by JS bitwise operators: reduce mod 2^32 and
reinterpret as a signed 32-bit value. -/
def toInt32 (n : ℤ) : ℤ :=
  let m := n % (4294967296 : ℤ)
  if m < 2147483648 then m else m - 4294967296

/-- JS signed right shift `n >> k` for an operand held as a nonnegative
residue: arithmetic shift of the int32 value, i.e. floor division by 2^k. -/
def jsShr (n : Nat) (k : Nat) : ℤ := Int.fdiv (toInt32 n) (2 ^ k)

/-- JS remainder `a % b` for a positive divisor: truncated division
remainder, carrying the sign of the dividend. -/
def jsRem (a : ℤ) (b : Nat) : ℤ :=
  if 0 ≤ a then a % (b : ℤ) else -((-a) % (b : ℤ))

/-- JS `x & 1`: the low bit of the int32 pattern, which is the nonnegative
residue of the value mod 2. -/
def jsAnd1 (a : ℤ) : ℤ := a % 2

/-- Result of `Math.trunc`-style division used by the JS `%` operator on
fractional operands (round toward zero). -/
def jsTrunc (q : ℚ) : ℤ := if 0 ≤ q then ⌊q⌋ else ⌈q⌉

/-- JS `a % b` on fractional operands: `a - b * trunc(a / b)`. -/
def jsModQ (a b : ℚ) : ℚ := a - b * (jsTrunc (a / b) : ℚ)

/-- JS `Math.round`: round half toward positive infinity. -/
def jsRound (q : ℚ) : ℤ := ⌊q + 1 / 2⌋

/-- Function `clamp` from `neynarService.ts`: `Math.max(min, Math.min(max, n))`. -/
def clamp (n mn mx : ℚ) : ℚ := max mn (min mx n)

/-! Hex formatting: JS `n.toString(16)` followed by `padStart(2, "0")` and a
final `toUpperCase` over the assembled string. -/

/-- Lowercase hex digit character `n.toString(16)` uses for `n < 16`:
code 48+n for the decimal digits, code 87+n (lowercase letters) above. -/
def hexDigitChar (n : Nat) : Char :=
  if n < 10 then Char.ofNat (48 + n) else Char.ofNat (87 + n)

/-- Hex digit list (most significant first, no leading zeros) of a natural
number, matching `n.toString(16)` for nonnegative `n`. -/
def natHexDigits (n : Nat) : List Char :=
  if _h : n < 16 then [hexDigitChar n]
  else natHexDigits (n / 16) ++ [hexDigitChar (n % 16)]
termination_by n
decreasing_by exact Nat.div_lt_self (by omega) (by omega)

/-- JS `n.toString(16)` for an integer: hex digits, with a leading minus sign
for negative values. -/
def jsIntToHex (n : ℤ) : String :=
  if n < 0 then "-" ++ ⟨natHexDigits n.natAbs⟩ else ⟨natHexDigits n.natAbs⟩

/-- JS `padStart(2, "0")`. -/
def padStart2 (s : String) : String :=
  if s.length < 2 then ⟨List.replicate (2 - s.length) '0'⟩ ++ s else s

/-- JS `toUpperCase` on the ASCII strings involved: uppercase each char. -/
def toUpperStr (s : String) : String := ⟨s.toList.map Char.toUpper⟩

/-- Function `hslToHex` from `neynarService.ts` (identical copy in the
unnamed Neynar module): normalise hue into [0,360), clamp saturation and
lightness into [0,100], standard HSL→RGB conversion, then `#RRGGBB` in
uppercase hex. -/
def hslToHex (h s l : ℚ) : String :=
  let h := jsModQ (jsModQ h 360 + 360) 360
  let s := clamp s 0 100 / 100
  let l := clamp l 0 100 / 100
  let c := (1 - |2 * l - 1|) * s
  let x := c * (1 - |jsModQ (h / 60) 2 - 1|)
  let m := l - c / 2
  let rgb : ℚ × ℚ × ℚ :=
    if h < 60 then (c, x, 0)
    else if h < 120 then (x, c, 0)
    else if h < 180 then (0, c, x)
    else if h < 240 then (0, x, c)
    else if h < 300 then (x, 0, c)
    else (c, 0, x)
  let toHex := fun (v : ℚ) => padStart2 (jsIntToHex (jsRound ((v + m) * 255)))
  toUpperStr ("#" ++ toHex rgb.1 ++ toHex rgb.2.1 ++ toHex rgb.2.2)

/-! Numeric range lemmas for the HSL conversion. -/

lemma jsModQ_nonneg_bounds (a b : ℚ) (ha : 0 ≤ a) (hb : 0 < b) :
    0 ≤ jsModQ a b ∧ jsModQ a b < b := by
  have hdiv : (0 : ℚ) ≤ a / b := div_nonneg ha hb.le
  unfold jsModQ jsTrunc
  rw [if_pos hdiv]
  have h1 : (⌊a / b⌋ : ℚ) ≤ a / b := Int.floor_le _
  have h2 : a / b < ⌊a / b⌋ + 1 := Int.lt_floor_add_one _
  constructor
  · nlinarith [mul_le_mul_of_nonneg_left h1 hb.le, div_mul_cancel₀ a hb.ne']
  · nlinarith [mul_lt_mul_of_pos_left h2 hb, div_mul_cancel₀ a hb.ne']

lemma jsModQ_neg_bounds (a b : ℚ) (ha : a < 0) (hb : 0 < b) :
    -b < jsModQ a b ∧ jsModQ a b ≤ 0 := by
  have hdiv : ¬ (0 : ℚ) ≤ a / b := by
    rw [not_le]
    exact div_neg_of_neg_of_pos ha hb
  unfold jsModQ jsTrunc
  rw [if_neg hdiv]
  have h1 : a / b ≤ (⌈a / b⌉ : ℚ) := Int.le_ceil _
  have h2 : (⌈a / b⌉ : ℚ) < a / b + 1 := Int.ceil_lt_add_one _
  constructor
  · nlinarith [mul_lt_mul_of_pos_left h2 hb, div_mul_cancel₀ a hb.ne']
  · nlinarith [mul_le_mul_of_nonneg_left h1 hb.le, div_mul_cancel₀ a hb.ne']

lemma jsModQ_abs_lt (a b : ℚ) (hb : 0 < b) : -b < jsModQ a b ∧ jsModQ a b < b := by
  rcases le_or_lt 0 a with ha | ha
  · have := jsModQ_nonneg_bounds a b ha hb
    constructor <;> linarith [this.1, this.2]
  · have := jsModQ_neg_bounds a b ha hb
    constructor <;> linarith [this.1, this.2]

lemma jsModQ_self_of_lt (a b : ℚ) (h0 : 0 ≤ a) (hab : a < b) : jsModQ a b = a := by
  have hb : 0 < b := lt_of_le_of_lt h0 hab
  have hdiv : (0 : ℚ) ≤ a / b := div_nonneg h0 hb.le
  have hfl : ⌊a / b⌋ = 0 := by
    rw [Int.floor_eq_zero_iff]
    constructor
    · exact hdiv
    · rw [div_lt_one hb]; exact hab
  unfold jsModQ jsTrunc
  rw [if_pos hdiv, hfl]
  push_cast
  ring

lemma jsModQ_add_self (a b : ℚ) (h0 : 0 ≤ a) (hab : a < b) : jsModQ (a + b) b = a := by
  have hb : 0 < b := lt_of_le_of_lt h0 hab
  have hdiv : (0 : ℚ) ≤ (a + b) / b := div_nonneg (by linarith) hb.le
  have hfl : ⌊(a + b) / b⌋ = 1 := by
    have h1 : (1 : ℚ) ≤ (a + b) / b := by
      rw [le_div_iff₀ hb]; linarith
    have h2 : (a + b) / b < 2 := by
      rw [div_lt_iff₀ hb]; linarith
    refine Int.floor_eq_iff.mpr ⟨by exact_mod_cast h1, by push_cast; linarith⟩
  unfold jsModQ jsTrunc
  rw [if_pos hdiv, hfl]
  push_cast
  ring

/-- Normalised hue: `((h % 360) + 360) % 360` lies in [0, 360). -/
lemma normHue_bounds (h : ℚ) :
    0 ≤ jsModQ (jsModQ h 360 + 360) 360 ∧ jsModQ (jsModQ h 360 + 360) 360 < 360 := by
  have hinner := jsModQ_abs_lt h 360 (by norm_num)
  exact jsModQ_nonneg_bounds _ 360 (by linarith [hinner.1]) (by norm_num)

lemma normHue_idem (h : ℚ) :
    jsModQ (jsModQ (jsModQ (jsModQ h 360 + 360) 360) 360 + 360) 360
      = jsModQ (jsModQ h 360 + 360) 360 := by
  have hb := normHue_bounds h
  rw [jsModQ_self_of_lt _ 360 hb.1 hb.2, jsModQ_add_self _ 360 hb.1 hb.2]

lemma clamp_mem (x mn mx : ℚ) (h : mn ≤ mx) : mn ≤ clamp x mn mx ∧ clamp x mn mx ≤ mx := by
  unfold clamp
  exact ⟨le_max_left _ _, max_le h (min_le_left _ _)⟩

lemma clamp_idem (x mn mx : ℚ) (h : mn ≤ mx) : clamp (clamp x mn mx) mn mx = clamp x mn mx := by
  have hb := clamp_mem x mn mx h
  set y := clamp x mn mx with hy
  show max mn (min mx y) = y
  rw [min_eq_right hb.2, max_eq_right hb.1]

/-! Structure of the per-byte hex rendering. -/

/-- Lowercase hex digits (output alphabet of `toString(16)`). -/
def hexLower : List Char := (List.range 16).map hexDigitChar

/-- Uppercase hex digits (alphabet of the final color strings). -/
def hexUpper : List Char := (List.range 16).map fun n => (hexDigitChar n).toUpper

lemma hexDigitChar_mem (n : Nat) (h : n < 16) : hexDigitChar n ∈ hexLower := by
  interval_cases n <;> decide

lemma natHexDigits_lt16 (n : Nat) (h : n < 16) : natHexDigits n = [hexDigitChar n] := by
  unfold natHexDigits
  rw [dif_pos h]

lemma natHexDigits_byte (n : Nat) (h16 : 16 ≤ n) (h : n ≤ 255) :
    natHexDigits n = [hexDigitChar (n / 16), hexDigitChar (n % 16)] := by
  unfold natHexDigits
  rw [dif_neg (by omega)]
  rw [natHexDigits_lt16 (n / 16) (by omega)]
  rfl

lemma byteHex_spec (n : ℤ) (h0 : 0 ≤ n) (h255 : n ≤ 255) :
    ∃ a b : Char, padStart2 (jsIntToHex n) = ⟨[a, b]⟩ ∧ a ∈ hexLower ∧ b ∈ hexLower := by
  have habs : n.natAbs ≤ 255 := by omega
  unfold jsIntToHex
  rw [if_neg (by omega)]
  rcases lt_or_le n.natAbs 16 with hlt | hge
  · rw [natHexDigits_lt16 _ hlt]
    refine ⟨'0', hexDigitChar n.natAbs, ?_, by decide, hexDigitChar_mem _ hlt⟩
    unfold padStart2
    rw [if_pos (show (⟨[hexDigitChar n.natAbs]⟩ : String).length < 2 from Nat.one_lt_two)]
    rfl
  · rw [natHexDigits_byte _ hge habs]
    refine ⟨hexDigitChar (n.natAbs / 16), hexDigitChar (n.natAbs % 16), ?_,
      hexDigitChar_mem _ (by omega), hexDigitChar_mem _ (by omega)⟩
    unfold padStart2
    rw [if_neg (show ¬ (⟨[hexDigitChar (n.natAbs / 16), hexDigitChar (n.natAbs % 16)]⟩ :
      String).length < 2 from Nat.lt_irrefl 2)]

lemma toUpper_hexLower : ∀ c ∈ hexLower, Char.toUpper c ∈ hexUpper := by decide

lemma roundByte_mem (q : ℚ) (h0 : 0 ≤ q) (h1 : q ≤ 1) :
    0 ≤ jsRound (q * 255) ∧ jsRound (q * 255) ≤ 255 := by
  unfold jsRound
  constructor
  · exact Int.floor_nonneg.mpr (by linarith)
  · have : ⌊q * 255 + 1 / 2⌋ < 256 := Int.floor_lt.mpr (by push_cast; linarith)
    omega

lemma triple_hex (v1 v2 v3 m : ℚ)
    (h10 : 0 ≤ v1 + m) (h11 : v1 + m ≤ 1)
    (h20 : 0 ≤ v2 + m) (h21 : v2 + m ≤ 1)
    (h30 : 0 ≤ v3 + m) (h31 : v3 + m ≤ 1) :
    ∃ c1 c2 c3 c4 c5 c6 : Char,
      toUpperStr ("#" ++ padStart2 (jsIntToHex (jsRound ((v1 + m) * 255)))
          ++ padStart2 (jsIntToHex (jsRound ((v2 + m) * 255)))
          ++ padStart2 (jsIntToHex (jsRound ((v3 + m) * 255))))
        = ⟨['#', c1, c2, c3, c4, c5, c6]⟩ ∧
      c1 ∈ hexUpper ∧ c2 ∈ hexUpper ∧ c3 ∈ hexUpper ∧
      c4 ∈ hexUpper ∧ c5 ∈ hexUpper ∧ c6 ∈ hexUpper := by
  have b1 := roundByte_mem _ h10 h11
  have b2 := roundByte_mem _ h20 h21
  have b3 := roundByte_mem _ h30 h31
  obtain ⟨a1, d1, e1, ha1, hd1⟩ := byteHex_spec _ b1.1 b1.2
  obtain ⟨a2, d2, e2, ha2, hd2⟩ := byteHex_spec _ b2.1 b2.2
  obtain ⟨a3, d3, e3, ha3, hd3⟩ := byteHex_spec _ b3.1 b3.2
  rw [e1, e2, e3]
  refine ⟨Char.toUpper a1, Char.toUpper d1, Char.toUpper a2, Char.toUpper d2,
    Char.toUpper a3, Char.toUpper d3, ?_,
    toUpper_hexLower _ ha1, toUpper_hexLower _ hd1, toUpper_hexLower _ ha2,
    toUpper_hexLower _ hd2, toUpper_hexLower _ ha3, toUpper_hexLower _ hd3⟩
  show (⟨(('#' :: [a1, d1] ++ [a2, d2] ++ [a3, d3]).map Char.toUpper : List Char)⟩ : String) = _
  have hhash : Char.toUpper '#' = '#' := by decide
  simp [hhash]

lemma c_abs_bounds (sc lc : ℚ) (hs0 : 0 ≤ sc) (hs1 : sc ≤ 1) (hl0 : 0 ≤ lc) (hl1 : lc ≤ 1) :
    0 ≤ (1 - |2 * lc - 1|) * sc ∧ (1 - |2 * lc - 1|) * sc ≤ 2 * lc ∧
      (1 - |2 * lc - 1|) * sc ≤ 2 - 2 * lc := by
  rcases abs_cases (2 * lc - 1) with ⟨he, hr⟩ | ⟨he, hr⟩ <;>
    refine ⟨by nlinarith, by nlinarith, by nlinarith⟩

/-- C5: for every rational hue, saturation and lightness — including negative
and out-of-range values — `hslToHex` returns a `#`-prefixed string of exactly
6 uppercase hex digits, and it agrees with itself applied to the
hue normalised mod 360 and the saturation/lightness silently clamped into
[0,100]; being a total function it never throws. -/
theorem hslToHex_wellformed (h s l : ℚ) :
    (hslToHex h s l).length = 7 ∧
    (hslToHex h s l).toList.head? = some '#' ∧
    (∀ c ∈ (hslToHex h s l).toList.tail, c ∈ hexUpper) ∧
    hslToHex h s l
      = hslToHex (jsModQ (jsModQ h 360 + 360) 360) (clamp s 0 100) (clamp l 0 100) := by
  have clamp_idem100 : ∀ x : ℚ, clamp (clamp x 0 100) 0 100 = clamp x 0 100 :=
    fun x => clamp_idem x 0 100 (by norm_num)
  have parts : ∃ c1 c2 c3 c4 c5 c6 : Char,
      hslToHex h s l = ⟨['#', c1, c2, c3, c4, c5, c6]⟩ ∧
      c1 ∈ hexUpper ∧ c2 ∈ hexUpper ∧ c3 ∈ hexUpper ∧
      c4 ∈ hexUpper ∧ c5 ∈ hexUpper ∧ c6 ∈ hexUpper := by
    have hn := normHue_bounds h
    have hsm := clamp_mem s 0 100 (by norm_num)
    have hlm := clamp_mem l 0 100 (by norm_num)
    set hh := jsModQ (jsModQ h 360 + 360) 360 with hhh
    set sc := clamp s 0 100 / 100 with hsc
    set lc := clamp l 0 100 / 100 with hlc
    have hs0 : 0 ≤ sc := by rw [hsc]; exact div_nonneg hsm.1 (by norm_num)
    have hs1 : sc ≤ 1 := by rw [hsc]; linarith [hsm.2]
    have hl0 : 0 ≤ lc := by rw [hlc]; exact div_nonneg hlm.1 (by norm_num)
    have hl1 : lc ≤ 1 := by rw [hlc]; linarith [hlm.2]
    have hcb := c_abs_bounds sc lc hs0 hs1 hl0 hl1
    set c := (1 - |2 * lc - 1|) * sc with hc
    have hm0 : 0 ≤ lc - c / 2 := by linarith [hcb.2.1]
    have hcm1 : c + (lc - c / 2) ≤ 1 := by linarith [hcb.2.2]
    have hm1 : lc - c / 2 ≤ 1 := by linarith [hcb.1]
    have hjm := jsModQ_nonneg_bounds (hh / 60) 2 (div_nonneg hn.1 (by norm_num)) (by norm_num)
    have ht0 : 0 ≤ 1 - |jsModQ (hh / 60) 2 - 1| := by
      rcases abs_cases (jsModQ (hh / 60) 2 - 1) with ⟨he, _⟩ | ⟨he, _⟩ <;>
        rw [he] <;> linarith [hjm.1, hjm.2]
    have ht1 : 1 - |jsModQ (hh / 60) 2 - 1| ≤ 1 := by
      have := abs_nonneg (jsModQ (hh / 60) 2 - 1)
      linarith
    set t := 1 - |jsModQ (hh / 60) 2 - 1| with htt
    set x := c * t with hx
    have hx0 : 0 ≤ x := by rw [hx]; exact mul_nonneg hcb.1 ht0
    have hxc : x ≤ c := by
      rw [hx]
      nlinarith [hcb.1]
    show ∃ c1 c2 c3 c4 c5 c6 : Char,
      (let rgb : ℚ × ℚ × ℚ :=
        if hh < 60 then (c, x, 0)
        else if hh < 120 then (x, c, 0)
        else if hh < 180 then (0, c, x)
        else if hh < 240 then (0, x, c)
        else if hh < 300 then (x, 0, c)
        else (c, 0, x)
       let toHex := fun (v : ℚ) =>
        padStart2 (jsIntToHex (jsRound ((v + (lc - c / 2)) * 255)))
       toUpperStr ("#" ++ toHex rgb.1 ++ toHex rgb.2.1 ++ toHex rgb.2.2))
        = ⟨['#', c1, c2, c3, c4, c5, c6]⟩ ∧ _
    simp only
    split_ifs <;>
      exact triple_hex _ _ _ _ (by linarith) (by linarith) (by linarith) (by linarith)
        (by linarith) (by linarith)
  obtain ⟨c1, c2, c3, c4, c5, c6, he, m1, m2, m3, m4, m5, m6⟩ := parts
  refine ⟨by rw [he]; rfl, by rw [he]; rfl, ?_, ?_⟩
  · rw [he]
    intro c hc
    simp only [String.toList] at hc
    fin_cases hc <;> assumption
  · show hslToHex h s l = _
    unfold hslToHex
    rw [normHue_idem, clamp_idem100, clamp_idem100]

/-- Witness for C5: the well-formedness statement at the out-of-range input
(h, s, l) = (−30, 150, 50). -/
theorem hslToHex_wellformed_witness :
    (hslToHex (-30) 150 50).length = 7 ∧
    (hslToHex (-30) 150 50).toList.head? = some '#' ∧
    (∀ c ∈ (hslToHex (-30) 150 50).toList.tail, c ∈ hexUpper) ∧
    hslToHex (-30) 150 50
      = hslToHex (jsModQ (jsModQ (-30) 360 + 360) 360) (clamp 150 0 100)
          (clamp 50 0 100) :=
  hslToHex_wellformed (-30) 150 50

/-! User profile model and phase (tier) classification. -/

/-- Farcaster user profile as consumed by the Neynar modules.  Scores are JS
numbers, modelled as rationals; optional fields are `Option`. -/
structure NeynarUser where
  fid : Nat
  username : String
  display_name : String
  pfp_url : Option String
  bio : Option String
  eth_addresses : List String
  follower_count : Nat
  following_count : Nat
  custody_address : Option String
  power_badge : Bool
  score : Option ℚ
  created_at : Option String
  neynar_user_score : Option ℚ
deriving Repr

/-- Phase classification result of `determineClinkerPhase`. -/
structure PhaseInfo where
  phase : Nat
  phaseName : String
  description : String
deriving Repr, DecidableEq

/-- Effective score: `user.score ?? user.experimental?.neynar_user_score ?? 0`. -/
def effectiveScore (u : NeynarUser) : ℚ :=
  match u.score with
  | some s => s
  | none =>
    match u.neynar_user_score with
    | some s => s
    | none => 0

/-- Function `determineClinkerPhase` from the unnamed Neynar module: tier
thresholds on (score, followers) checked from highest to lowest, defaulting
to phase 1. -/
def determineClinkerPhase (u : NeynarUser) : PhaseInfo :=
  let score := effectiveScore u
  let followers := u.follower_count
  if score ≥ 9 / 10 ∧ followers > 5000 then
    ⟨4, "OG", "Long-time, high-score user with elite standing"⟩
  else if score ≥ 7 / 10 ∧ followers > 1000 then
    ⟨3, "Rising Star", "Established, influential Clinker with growing recognition"⟩
  else if score ≥ 4 / 10 ∧ followers > 100 then
    ⟨2, "Youngin", "Active, promising Clinker gaining traction"⟩
  else
    ⟨1, "Baby", "New member, fresh in the Clinkers realm"⟩

/-- Threshold condition of each tier (trivially true for the base tier). -/
def tierCond (k : Nat) (u : NeynarUser) : Prop :=
  match k with
  | 4 => effectiveScore u ≥ 9 / 10 ∧ u.follower_count > 5000
  | 3 => effectiveScore u ≥ 7 / 10 ∧ u.follower_count > 1000
  | 2 => effectiveScore u ≥ 4 / 10 ∧ u.follower_count > 100
  | _ => True

instance (k : Nat) (u : NeynarUser) : Decidable (tierCond k u) := by
  unfold tierCond
  split <;> infer_instance

/-- Test profile with a given score and follower count (other fields inert). -/
def mkProfile (score : Option ℚ) (followers : Nat) : NeynarUser :=
  ⟨239396, "ayojoseph", "Joseph", none, none, [], followers, 10, none, false,
    score, none, none⟩

lemma phase_val (u : NeynarUser) :
    (determineClinkerPhase u).phase =
      if tierCond 4 u then 4 else if tierCond 3 u then 3
      else if tierCond 2 u then 2 else 1 := by
  unfold determineClinkerPhase tierCond
  simp only
  split_ifs <;> rfl

lemma phase_in_range (u : NeynarUser) :
    1 ≤ (determineClinkerPhase u).phase ∧ (determineClinkerPhase u).phase ≤ 4 := by
  rw [phase_val]
  split_ifs <;> omega

lemma phase_max_of_tierCond (u : NeynarUser) (k : Nat) (hk : k ≤ 4)
    (h : tierCond k u) : k ≤ (determineClinkerPhase u).phase := by
  rw [phase_val]
  interval_cases k <;> split_ifs <;> omega

lemma phase_sound (u : NeynarUser) : tierCond (determineClinkerPhase u).phase u := by
  rw [phase_val]
  split_ifs <;> first | assumption | trivial

/-- C3: `determineClinkerPhase` checks its thresholds in descending order with
first match winning and falls back to the lowest tier: score 0.95 with 6000
followers classifies as phase 4; score 0 with 0 followers as phase 1; a
missing score defaults to 0 (same result as an explicit score 0); whenever a
profile satisfies the condition of some tier it resolves to at least that
tier (so satisfying two tiers resolves to the higher), and the condition of
the returned tier is itself satisfied. -/
theorem determineClinkerPhase_spec :
    (determineClinkerPhase (mkProfile (some (95 / 100)) 6000)).phase = 4 ∧
    (determineClinkerPhase (mkProfile (some 0) 0)).phase = 1 ∧
    (∀ u : NeynarUser, u.score = none → u.neynar_user_score = none →
      determineClinkerPhase u = determineClinkerPhase { u with score := some 0 }) ∧
    (∀ (u : NeynarUser) (k : Nat), k ≤ 4 → tierCond k u →
      k ≤ (determineClinkerPhase u).phase) ∧
    (∀ u : NeynarUser, tierCond (determineClinkerPhase u).phase u) := by
  refine ⟨?_, ?_, ?_, phase_max_of_tierCond, phase_sound⟩
  · rw [phase_val]
    rw [if_pos (by unfold tierCond mkProfile effectiveScore; norm_num)]
  · rw [phase_val]
    rw [if_neg (by unfold tierCond mkProfile effectiveScore; norm_num),
      if_neg (by unfold tierCond mkProfile effectiveScore; norm_num),
      if_neg (by unfold tierCond mkProfile effectiveScore; norm_num)]
  · intro u h1 h2
    unfold determineClinkerPhase effectiveScore
    rw [h1, h2]

/-- Witness for C3: the two-tier resolution clause applied at the concrete
top-tier profile. -/
theorem determineClinkerPhase_spec_witness :
    4 ≤ (determineClinkerPhase (mkProfile (some (95 / 100)) 6000)).phase :=
  determineClinkerPhase_spec.2.2.2.1 (mkProfile (some (95 / 100)) 6000) 4
    (by norm_num) (by unfold tierCond mkProfile effectiveScore; norm_num)

/-! Clinker prompt generation (unnamed Neynar module, `generateClinkerPrompt`). -/

/-- JS array indexing `arr[i]`: the element when `i` is in bounds, otherwise
`undefined`, modelled as `none`. -/
def jsIndex (l : List String) (i : ℤ) : Option String :=
  if 0 ≤ i ∧ i < (l.length : ℤ) then some (l.getD i.toNat "") else none

/-- JS template-literal rendering of a possibly-undefined value. -/
def jsStr (o : Option String) : String := o.getD "undefined"

/-- Seed string `${fid}-${phaseName}-${username}-${follower_count}`. -/
def clinkerSeedStr (u : NeynarUser) : String :=
  let fid := u.fid
  let phaseName := (determineClinkerPhase u).phaseName
  let username := u.username
  let followers := u.follower_count
  s!"{fid}-{phaseName}-{username}-{followers}"

/-- Primary trait seed of `generateClinkerPrompt`. -/
def clinkerSeed (u : NeynarUser) : Nat := hashString (clinkerSeedStr u)

/-- Secondary seed: `hashString(`${username}-${fid}`)`. -/
def clinkerSeed2 (u : NeynarUser) : Nat :=
  let username := u.username
  let fid := u.fid
  hashString s!"{username}-{fid}"

/-- Third seed: `hashString(`${display_name}-${follower_count}`)`. -/
def clinkerSeed3 (u : NeynarUser) : Nat :=
  let displayName := u.display_name
  let followers := u.follower_count
  hashString s!"{displayName}-{followers}"

def clinkerBaseHue (u : NeynarUser) : Nat := clinkerSeed u % 360

/-- Hue variation `(seed2 % 60) - 30`, which may be negative. -/
def clinkerHueVariation (u : NeynarUser) : ℤ := (clinkerSeed2 u % 60 : Nat) - 30

/-- Eye hue `(baseHue + hueVariation + 360) % 360`; the operand is
nonnegative, so JS `%` agrees with `jsRem`. -/
def clinkerEyeHue (u : NeynarUser) : ℤ :=
  jsRem ((clinkerBaseHue u : ℤ) + clinkerHueVariation u + 360) 360

def clinkerEyeSat (u : NeynarUser) : Nat := 65 + clinkerSeed u % 25

def clinkerEyeLight (u : NeynarUser) : Nat := 55 + clinkerSeed2 u % 20

def clinkerEyeColor (u : NeynarUser) : String :=
  hslToHex (clinkerEyeHue u : ℚ) (clinkerEyeSat u : ℚ) (clinkerEyeLight u : ℚ)

/-- Stone hue `(baseHue + phase * 45 + (seed3 % 40)) % 360`. -/
def clinkerStoneHue (u : NeynarUser) : Nat :=
  (clinkerBaseHue u + (determineClinkerPhase u).phase * 45 + clinkerSeed3 u % 40) % 360

/-- Stone saturation `50 + ((seed >> 2) % 30)` with JS signed shift. -/
def clinkerStoneSat (u : NeynarUser) : ℤ := 50 + jsRem (jsShr (clinkerSeed u) 2) 30

def clinkerStoneLight (u : NeynarUser) : ℤ := 45 + jsRem (jsShr (clinkerSeed2 u) 2) 25

def clinkerStoneColor (u : NeynarUser) : String :=
  hslToHex (clinkerStoneHue u : ℚ) (clinkerStoneSat u : ℚ) (clinkerStoneLight u : ℚ)

/-- Accent hue `(baseHue + 120 + (seed % 120)) % 360`. -/
def clinkerAccentHue (u : NeynarUser) : Nat :=
  (clinkerBaseHue u + 120 + clinkerSeed u % 120) % 360

def clinkerAccentSat (u : NeynarUser) : Nat := 60 + clinkerSeed3 u % 30

def clinkerAccentLight (u : NeynarUser) : ℤ := 50 + jsRem (jsShr (clinkerSeed u) 3) 25

def clinkerAccentColor (u : NeynarUser) : String :=
  hslToHex (clinkerAccentHue u : ℚ) (clinkerAccentSat u : ℚ) (clinkerAccentLight u : ℚ)

/-- The three palette colors (eye, stone, accent). -/
def clinkerPalette (u : NeynarUser) : String × String × String :=
  (clinkerEyeColor u, clinkerStoneColor u, clinkerAccentColor u)

/-- Surface pattern candidate pool. -/
def patterns : List String :=
  ["crystalline facets with geometric edges",
   "smooth glossy polished surface",
   "rough textured with micro-pores",
   "iridescent shimmer that shifts colors",
   "matte stone with soft gradient",
   "metallic sheen with reflective spots",
   "cracked weathered ancient look",
   "swirling marble-like veins",
   "bumpy pebbled texture",
   "frosted translucent appearance",
   "layered sedimentary bands",
   "speckled with tiny dots"]

/-- Unique feature candidate pool. -/
def features : List String :=
  ["tiny glowing gem embedded in forehead",
   "subtle lightning-bolt crack pattern",
   "pulsing glowing vein lines",
   "small crystal cluster growth on side",
   "faint ancient rune marks",
   "floating energy wisps",
   "bioluminescent spots scattered",
   "frost or ice crystals forming",
   "miniature orbiting particles",
   "ethereal smoke trail",
   "prismatic light refraction",
   "subtle geometric tattoos",
   "small barnacle-like growths",
   "moss or lichen patches",
   "carved symbolic patterns"]

/-- Personality expression candidate pool. -/
def expressions : List String :=
  ["curious wide-eyed wonder",
   "confident knowing gaze",
   "playful mischievous smile",
   "wise ancient stare",
   "determined focused look",
   "serene peaceful calm",
   "cheeky sideways glance",
   "sleepy half-closed eyes",
   "excited energetic sparkle",
   "grumpy furrowed brow",
   "shy bashful look away",
   "proud chin-up posture"]

/-- Body proportion candidate pool. -/
def proportions : List String :=
  ["slightly rounder and squatter",
   "slightly taller and slimmer",
   "perfectly balanced proportions",
   "wide base tapering up",
   "narrow base widening up",
   "asymmetric charming tilt"]

/-- Eye shape candidate pool. -/
def eyeShapes : List String :=
  ["large round pupils",
   "oval almond-shaped eyes",
   "small beady eyes",
   "one eye slightly larger",
   "eyes close together",
   "eyes wide apart",
   "droopy relaxed eyelids",
   "alert upturned eyes"]

/-- Aura effect candidate pool. -/
def auraEffects : List String :=
  ["soft diffused glow",
   "sharp defined aura",
   "pulsing rhythmic light",
   "flickering subtle shimmer",
   "steady constant radiance",
   "swirling spiral energy",
   "geometric light patterns",
   "wispy trailing glow"]

/-- Index `seed % patterns.length` (nonnegative operand, so plain mod). -/
def patternIndexOf (u : NeynarUser) : ℤ := jsRem (clinkerSeed u) patterns.length

def surfacePatternOf (u : NeynarUser) : Option String :=
  jsIndex patterns (patternIndexOf u)

/-- Index `(seed >> 4) % features.length` with JS signed shift. -/
def featureIndexOf (u : NeynarUser) : ℤ := jsRem (jsShr (clinkerSeed u) 4) features.length

def uniqueFeatureOf (u : NeynarUser) : Option String :=
  jsIndex features (featureIndexOf u)

def expressionIndexOf (u : NeynarUser) : ℤ :=
  jsRem (jsShr (clinkerSeed u) 8) expressions.length

def personalityOf (u : NeynarUser) : Option String :=
  jsIndex expressions (expressionIndexOf u)

def proportionIndexOf (u : NeynarUser) : ℤ :=
  jsRem (jsShr (clinkerSeed3 u) 2) proportions.length

def bodyShapeOf (u : NeynarUser) : Option String :=
  jsIndex proportions (proportionIndexOf u)

def eyeShapeIndexOf (u : NeynarUser) : ℤ :=
  jsRem (jsShr (clinkerSeed u + clinkerSeed2 u) 3) eyeShapes.length

def eyeShapeOf (u : NeynarUser) : Option String :=
  jsIndex eyeShapes (eyeShapeIndexOf u)

def auraIndexOf (u : NeynarUser) : ℤ :=
  jsRem (jsShr (clinkerSeed2 u) 4) auraEffects.length

def auraStyleOf (u : NeynarUser) : Option String :=
  jsIndex auraEffects (auraIndexOf u)

/-- Phase-dependent description paragraph. -/
def clinkerPhaseDescription (phase : Nat) : String :=
  if phase = 1 then
    "BABY tier: Small, compact form with soft edges and gentle proportions."
  else if phase = 2 then
    "YOUNGIN tier: Growing form with developing features and youthful energy."
  else if phase = 3 then
    "RISING STAR tier: Mature presence with refined details and confident stance."
  else
    "OG tier: Commanding ancient form with majestic proportions and legendary aura."

/-- Prompt text assembled by `generateClinkerPrompt` (the returned string,
with the phase, palette, trait selections and seeds interpolated exactly as
in the source template). -/
def generateClinkerPrompt (u : NeynarUser) : String :=
  let fid := u.fid
  let username := u.username
  let followers := u.follower_count
  let p := determineClinkerPhase u
  let phase := p.phase
  let phaseName := p.phaseName
  let seed := clinkerSeed u
  let seed2 := clinkerSeed2 u
  let seed3 := clinkerSeed3 u
  let eyeColor := clinkerEyeColor u
  let stoneColor := clinkerStoneColor u
  let accentColor := clinkerAccentColor u
  let surfacePattern := jsStr (surfacePatternOf u)
  let uniqueFeature := jsStr (uniqueFeatureOf u)
  let personality := jsStr (personalityOf u)
  let bodyShape := jsStr (bodyShapeOf u)
  let eyeShape := jsStr (eyeShapeOf u)
  let auraStyle := jsStr (auraStyleOf u)
  let basePrompt := s!"A digital 2D collectible NFT of Clinker #{fid} — a unique stone-like creature with soft round form, expressive eyes, and a subtle Base-themed glow."
  let phaseDescription := clinkerPhaseDescription phase
  let bar := String.mk (List.replicate 63 '═')
  s!"{basePrompt}

PHASE: {phaseName} (Stage {phase}/4)
{phaseDescription}

{bar}
UNIQUE DNA FOR CLINKER #{fid} ({username})
{bar}

🎨 COLOR PALETTE (Must be prominently visible):
   • Eye Color: {eyeColor} ({eyeShape})
   • Stone Body: {stoneColor} ({surfacePattern})
   • Accent/Glow: {accentColor} ({auraStyle})

✨ DISTINCTIVE FEATURES:
   • Special Trait: {uniqueFeature}
   • Body Variation: {bodyShape} (within phase proportions)
   • Facial Expression: {personality}

🔬 RENDERING INSTRUCTIONS:
1. START with the phase-appropriate base structure from reference image
2. TRANSFORM the colors to match the unique palette above - this is CRITICAL
3. APPLY the specified surface texture ({surfacePattern}) to the body
4. ADD the unique feature ({uniqueFeature}) in a visible but tasteful way
5. ADJUST body proportions subtly ({bodyShape}) while keeping phase silhouette
6. RENDER eyes with ({eyeShape}) using color {eyeColor}
7. ADD glow/aura with ({auraStyle}) using color {accentColor}
8. EXPRESS personality through ({personality})
9. PRESERVE background exactly as shown in base image
10. Ensure NO TWO Clinkers look identical - emphasize color differences

⚠️ CRITICAL: The three colors ({eyeColor}, {stoneColor}, {accentColor}) MUST dominate the design.
This Clinker should be instantly recognizable by its unique color combination.

UNIQUENESS SEEDS: [{seed}, {seed2}, {seed3}]
USERNAME: {username} | FOLLOWERS: {followers}
"

/-! Carplet design spec derivation (`deriveCarpletDesignSpec` in
`neynarService.ts`).  Fractional JS arithmetic is modelled over `ℚ`. -/

/-- Result record of `deriveCarpletDesignSpec`.  The accessories are
`Option String` because the JS fallback can index the pool at a negative
position and push `undefined`. -/
structure CarpletDesignSpec where
  backgroundHex : String
  primaryHex : String
  secondaryHex : String
  accentHex : String
  silhouette : String
  accessories : List (Option String)
  expression : String
deriving Repr, DecidableEq

/-- Seed string
`${fid}-${username}-${follower_count}-${following_count}-${power_badge ? 1 : 0}`. -/
def carpletSeedStr (u : NeynarUser) : String :=
  let fid := u.fid
  let username := u.username
  let followers := u.follower_count
  let following := u.following_count
  let pb : Nat := if u.power_badge then 1 else 0
  s!"{fid}-{username}-{followers}-{following}-{pb}"

def carpletSeed (u : NeynarUser) : Nat := hashString (carpletSeedStr u)

/-- Base hue: `seed % 360`, with trait-dependent biases
(`baseHue * 0.5 + offset`, taken mod 360). -/
def carpletBaseHue (u : NeynarUser) (traits interests : List String) : ℚ :=
  let base : ℚ := (carpletSeed u % 360 : Nat)
  if traits.contains "Builder" || traits.contains "Technical" ||
      traits.contains "Frame Developer" then
    jsModQ (base * (1 / 2) + 200) 360
  else if traits.contains "Creative" || traits.contains "Artistic" then
    jsModQ (base * (1 / 2) + 25) 360
  else if traits.contains "Crypto Native" || interests.contains "Blockchain" then
    jsModQ (base * (1 / 2) + 135) 360
  else
    base

/-- Influence factor `clamp(follower_count, 0, 20000) / 20000`. -/
def carpletInfluence (u : NeynarUser) : ℚ :=
  clamp (u.follower_count : ℚ) 0 20000 / 20000

/-- Saturation `55 + Math.round((seed % 30) * 0.7) + Math.round(influence * 10)`.
JS evaluates `0.7` in binary floating point; over the ranges involved the
rounded results agree with the exact rational computation. -/
def carpletSaturation (u : NeynarUser) : ℤ :=
  55 + jsRound ((carpletSeed u % 30 : Nat) * (7 / 10)) +
    jsRound (carpletInfluence u * 10)

/-- Lightness `58 + Math.round(((seed >> 4) % 20) * 0.7) - Math.round(influence * 8)`
(the shift is JS signed `>>`). -/
def carpletLightness (u : NeynarUser) : ℤ :=
  58 + jsRound ((jsRem (jsShr (carpletSeed u) 4) 20 : ℤ) * (7 / 10)) -
    jsRound (carpletInfluence u * 8)

def carpletPrimaryHex (u : NeynarUser) (traits interests : List String) : String :=
  hslToHex (carpletBaseHue u traits interests) (carpletSaturation u : ℚ)
    (carpletLightness u : ℚ)

/-- Secondary hue `(baseHue + 30) % 360`. -/
def carpletSecondaryHue (u : NeynarUser) (traits interests : List String) : ℚ :=
  jsModQ (carpletBaseHue u traits interests + 30) 360

def carpletSecondaryHex (u : NeynarUser) (traits interests : List String) : String :=
  hslToHex (carpletSecondaryHue u traits interests)
    (clamp ((carpletSaturation u : ℚ) - 10) 35 95)
    (clamp ((carpletLightness u : ℚ) - 10) 30 85)

/-- Accent hue `(baseHue + 300) % 360`. -/
def carpletAccentHue (u : NeynarUser) (traits interests : List String) : ℚ :=
  jsModQ (carpletBaseHue u traits interests + 300) 360

def carpletAccentHex (u : NeynarUser) (traits interests : List String) : String :=
  hslToHex (carpletAccentHue u traits interests)
    (clamp ((carpletSaturation u : ℚ) + 10) 35 95)
    (clamp ((carpletLightness u : ℚ) + 5) 30 85)

/-- Background hue offset `180 + ((seed >> 7) % 60) - 30` (signed shift). -/
def carpletBgHueOffset (u : NeynarUser) : ℤ :=
  180 + jsRem (jsShr (carpletSeed u) 7) 60 - 30

def carpletBackgroundHex (u : NeynarUser) (traits interests : List String) : String :=
  let bgHue := jsModQ (carpletBaseHue u traits interests +
    (carpletBgHueOffset u : ℚ) + 360) 360
  let bgSat := clamp (30 + (carpletSeed u % 25 : Nat) : ℚ) 30 55
  let bgLight := clamp (60 + (jsRem (jsShr (carpletSeed u) 4) 20 : ℤ) : ℚ) 60 78
  hslToHex bgHue bgSat bgLight

/-- Silhouette selection: a chain of trait checks, later matches overwrite. -/
def carpletSilhouette (traits : List String) : String :=
  let s0 := "compact round"
  let s1 := if traits.contains "Influential" || traits.contains "Thought Leader"
    then "tall slim" else s0
  let s2 := if traits.contains "Athletic" then "athletic" else s1
  let s3 := if traits.contains "Builder" || traits.contains "Technical"
    then "techy angular" else s2
  if traits.contains "Creative" || traits.contains "Artistic" then "chibi" else s3

/-- Expression selection (first matching trait wins, default confident). -/
def carpletExpression (traits : List String) : String :=
  if traits.contains "Humorous" then "mischievous"
  else if traits.contains "Creative" then "cheerful"
  else if traits.contains "Technical" then "focused"
  else "confident"

/-- Insertion-ordered set add (JS `Set.add`). -/
def addUniq (l : List String) (x : String) : List String :=
  if l.contains x then l else l ++ [x]

/-- Accessory candidate pool, built in JS `Set` insertion order. -/
def accessoryPool (traits interests : List String) : List String :=
  let pool : List String := []
  let pool := if traits.contains "Builder" || traits.contains "Technical" ||
      traits.contains "Project Creator" then
    addUniq (addUniq (addUniq pool "tech goggles") "tiny antenna")
      "holographic code symbols"
    else pool
  let pool := if traits.contains "Influential" || traits.contains "Thought Leader" then
    addUniq (addUniq pool "mini crown") "leadership aura" else pool
  let pool := if traits.contains "DeFi Trader" || interests.contains "Trading" then
    addUniq (addUniq pool "trading glasses") "mini chart charm" else pool
  let pool := if traits.contains "Creative" || traits.contains "Artistic" then
    addUniq (addUniq pool "paintbrush") "color splatter accents" else pool
  let pool := if traits.contains "NFT Enthusiast" then
    addUniq pool "collectible gem pin" else pool
  let pool := if traits.contains "Power User" || traits.contains "Farcaster OG" then
    addUniq pool "OG badge" else pool
  addUniq (addUniq pool "Base pendant") "leaf sprout"

/-- Accessory selection: walk the pool taking items whose seed bit
`(seed >> (i % 16)) & 1` is set (stopping at 4); if fewer than 2 were taken,
push one more at index `(seed >> 5) % pool.length` (JS signed shift, so the
index may be negative, pushing `undefined`); finally `slice(0, 4)`. -/
def pickAccessorySubset (pool : List String) (seed : Nat) : List (Option String) :=
  let selected := (List.range pool.length).foldl
    (fun sel i =>
      if sel.length < 4 ∧ jsAnd1 (jsShr seed (i % 16)) = 1 then
        sel ++ [some (pool.getD i "")]
      else sel) []
  let selected := if selected.length < 2 ∧ 0 < pool.length then
      selected ++ [jsIndex pool (jsRem (jsShr seed 5) pool.length)]
    else selected
  selected.take 4

/-- Function `deriveCarpletDesignSpec` from `neynarService.ts`. -/
def deriveCarpletDesignSpec (u : NeynarUser) (traits interests : List String) :
    CarpletDesignSpec :=
  { backgroundHex := carpletBackgroundHex u traits interests
    primaryHex := carpletPrimaryHex u traits interests
    secondaryHex := carpletSecondaryHex u traits interests
    accentHex := carpletAccentHex u traits interests
    silhouette := carpletSilhouette traits
    accessories := pickAccessorySubset (accessoryPool traits interests) (carpletSeed u)
    expression := carpletExpression traits }

/-- Concrete reachable profile used as failing input: FID 1, username
"alice", empty display name, no followers, no badge, no score. -/
def aliceProfile : NeynarUser :=
  ⟨1, "alice", "", none, none, [], 0, 0, none, false, none, none, none⟩

/-- Circular hue distance for integer hues already reduced into [0,360). -/
def hueSepN (a b : Nat) : Nat := min ((a + 360 - b) % 360) ((b + 360 - a) % 360)

/-- Circular hue distance for rational hues already reduced into [0,360). -/
def hueSepQ (a b : ℚ) : ℚ := min |a - b| (360 - |a - b|)

/-- C4 (failing input): on the reachable profile `aliceProfile` the unique
feature and aura indices are computed with JS signed `>>` on a seed above
2^31, come out negative (−8 and −3), and the corresponding pool lookups are
`undefined` — not elements of the candidate pools.  (The surface pattern
index `seed % 12` stays in bounds.) -/
theorem clinkerSelection_undefined :
    featureIndexOf aliceProfile = -8 ∧ uniqueFeatureOf aliceProfile = none ∧
    auraIndexOf aliceProfile = -3 ∧ auraStyleOf aliceProfile = none ∧
    patternIndexOf aliceProfile = 7 ∧
    surfacePatternOf aliceProfile = some "swirling marble-like veins" := by
  have hph : determineClinkerPhase aliceProfile
      = ⟨1, "Baby", "New member, fresh in the Clinkers realm"⟩ := by
    unfold determineClinkerPhase effectiveScore aliceProfile
    norm_num
  have hstr : clinkerSeedStr aliceProfile = "1-Baby-alice-0" := by
    unfold clinkerSeedStr
    rw [hph]
    decide
  have h1 : clinkerSeed aliceProfile = 3159347419 := by
    unfold clinkerSeed
    rw [hstr]
    decide
  have h2 : clinkerSeed2 aliceProfile = 2667321309 := by decide
  refine ⟨?_, ?_, ?_, ?_, ?_, ?_⟩
  · unfold featureIndexOf
    rw [h1]
    decide
  · unfold uniqueFeatureOf featureIndexOf
    rw [h1]
    decide
  · unfold auraIndexOf
    rw [h2]
    decide
  · unfold auraStyleOf auraIndexOf
    rw [h2]
    decide
  · unfold patternIndexOf
    rw [h1]
    decide
  · unfold surfacePatternOf patternIndexOf
    rw [h1]
    decide

/-- C2 (failing input): on the reachable profile `aliceProfile` (no traits,
seed 3262878960 ≡ 0 mod 4) the bit-selection loop takes nothing, and the
fallback pushes the pool at index `(seed >> 5) % 2 = -1` — i.e. `undefined` —
so the returned accessory list is `[undefined]`: length 1, not within the
documented 2..4 range. -/
theorem accessories_underfilled :
    (deriveCarpletDesignSpec aliceProfile [] []).accessories = [none] ∧
    ((deriveCarpletDesignSpec aliceProfile [] []).accessories).length = 1 ∧
    accessoryPool [] [] = ["Base pendant", "leaf sprout"] := by
  have hs : carpletSeed aliceProfile = 3262878960 := by decide
  have hacc : (deriveCarpletDesignSpec aliceProfile [] []).accessories
      = pickAccessorySubset (accessoryPool [] []) (carpletSeed aliceProfile) := rfl
  have h1 : (deriveCarpletDesignSpec aliceProfile [] []).accessories = [none] := by
    rw [hacc, hs]
    decide
  exact ⟨h1, by rw [h1]; rfl, by decide⟩

/-- C8 (counterexample): in `deriveCarpletDesignSpec` the accent hue is
`(baseHue + 300) % 360`, only 60° away from the base hue on the circle —
not the claimed ≥ 120°.  Witnessed on `aliceProfile` (base hue 240,
accent hue 180). -/
theorem carpletAccentHue_close : carpletBaseHue aliceProfile [] [] = 240 ∧
    carpletAccentHue aliceProfile [] [] = 180 ∧
    hueSepQ (carpletAccentHue aliceProfile [] [])
      (carpletBaseHue aliceProfile [] []) = 60 ∧ (60 : ℚ) < 120 := by
  have hseed : carpletSeed aliceProfile = 3262878960 := by decide
  have hbase : carpletBaseHue aliceProfile [] [] = 240 := by
    unfold carpletBaseHue
    rw [hseed]
    norm_num
  have haccent : carpletAccentHue aliceProfile [] [] = 180 := by
    unfold carpletAccentHue
    rw [hbase, show (240 : ℚ) + 300 = 180 + 360 by norm_num,
      jsModQ_add_self 180 360 (by norm_num) (by norm_num)]
  refine ⟨hbase, haccent, ?_, by norm_num⟩
  rw [hbase, haccent]
  unfold hueSepQ
  rw [show (180 : ℚ) - 240 = -60 by norm_num, abs_neg, abs_of_nonneg (by norm_num)]
  norm_num

/-- C8 (amended): in the Clinker palette (`generateClinkerPrompt`), the stone
hue is the base hue rotated by the tier-dependent offset
`phase * 45 + (seed3 % 40)` ∈ [45, 219] and the accent hue by the triadic
offset `120 + (seed % 120)` ∈ [120, 239]; hence for every profile the stone
hue is at least 45° and the accent hue at least 120° from the base hue on
the circle. -/
theorem clinkerPalette_hue_separation (u : NeynarUser) :
    45 ≤ hueSepN (clinkerStoneHue u) (clinkerBaseHue u) ∧
    120 ≤ hueSepN (clinkerAccentHue u) (clinkerBaseHue u) := by
  have hp := phase_in_range u
  unfold clinkerStoneHue clinkerAccentHue clinkerBaseHue hueSepN
  have h3 : clinkerSeed3 u % 40 < 40 := Nat.mod_lt _ (by omega)
  have h120 : clinkerSeed u % 120 < 120 := Nat.mod_lt _ (by omega)
  constructor <;> omega

/-! Seed derivation in `generateCarpletImage` (`imageGeneration.ts`):
`Array.from(`${fid}-${seedSalt ?? 0}`).reduce((acc, ch, i) =>
(acc + ch.charCodeAt(0) * (i + 17)) % 1000003, 0)`. -/

/-- Accumulator loop of the image-generation seed hash: position-weighted
character sum mod 1000003. -/
def imageSeedAux (acc : Nat) (i : Nat) : List Nat → Nat
  | [] => acc
  | c :: cs => imageSeedAux ((acc + c * (i + 17)) % 1000003) (i + 1) cs

/-- Seed basis string `${fid}-${salt}` (numeric fid and salt case). -/
def imageSeedStr (fid salt : Nat) : String := s!"{fid}-{salt}"

/-- The numeric seed computed in `generateCarpletImage` before `toString`. -/
def imageSeedHash (fid salt : Nat) : Nat :=
  imageSeedAux 0 0 (charCodes (imageSeedStr fid salt))

lemma imageSeedAux_append (l : List Nat) (c acc i : Nat) :
    imageSeedAux acc i (l ++ [c])
      = (imageSeedAux acc i l + c * (i + l.length + 17)) % 1000003 := by
  induction l generalizing acc i with
  | nil => rfl
  | cons d t ih =>
    show imageSeedAux ((acc + d * (i + 17)) % 1000003) (i + 1) (t ++ [c]) = _
    rw [ih]
    show _ = (imageSeedAux ((acc + d * (i + 17)) % 1000003) (i + 1) t +
      c * (i + (t.length + 1) + 17)) % 1000003
    rw [show i + 1 + t.length + 17 = i + (t.length + 1) + 17 by omega]

lemma imageSeedAux_lt (l : List Nat) (acc i : Nat) (h : acc < 1000003) :
    imageSeedAux acc i l < 1000003 := by
  induction l generalizing acc i with
  | nil => exact h
  | cons d t ih => exact ih _ _ (Nat.mod_lt _ (by omega))

lemma charCodes_append (a b : String) :
    charCodes (a ++ b) = charCodes a ++ charCodes b := by
  show (a.data ++ b.data).map Char.toNat = a.data.map Char.toNat ++ b.data.map Char.toNat
  exact List.map_append _ _ _

lemma charCodes_digit (s : Nat) (h : s < 10) :
    charCodes (toString s) = [48 + s] := by
  interval_cases s <;> decide

lemma charCodes_empty : charCodes (toString "") = [] := rfl

/-- C7 (counterexample): with the same fid 1 the distinct salts 140 and 221
produce the identical derived seed 4622 — the position-weighted character
sum collides. -/
theorem imageSeedHash_collision :
    imageSeedHash 1 140 = imageSeedHash 1 221 ∧ (140 : Nat) ≠ 221 ∧
    imageSeedHash 1 140 = 4622 := by
  refine ⟨by decide, by decide, by decide⟩

/-- C7 (amended): seed collisions between distinct salts exist, but distinct
single-digit salts (0..9) always produce distinct seeds for the same fid
(for any fid whose rendered prefix is of reasonable length). -/
theorem imageSeedHash_small_salts_distinct (fid s1 s2 : Nat)
    (h1 : s1 < 10) (h2 : s2 < 10) (hne : s1 ≠ s2)
    (hlen : (charCodes (toString "" ++ toString fid ++ toString "-")).length ≤ 1000) :
    imageSeedHash fid s1 ≠ imageSeedHash fid s2 := by
  set P := charCodes (toString "" ++ toString fid ++ toString "-") with hP
  have decomp : ∀ s : Nat, s < 10 →
      imageSeedHash fid s = (imageSeedAux 0 0 P + (48 + s) * (P.length + 17)) % 1000003 := by
    intro s hs
    unfold imageSeedHash imageSeedStr
    rw [charCodes_append, charCodes_empty, List.append_nil, charCodes_append,
      charCodes_digit s hs, imageSeedAux_append]
    rw [show (0 : Nat) + P.length + 17 = P.length + 17 by omega]
  have hA : imageSeedAux 0 0 P < 1000003 := imageSeedAux_lt _ _ _ (by omega)
  rw [decomp s1 h1, decomp s2 h2]
  intro heq
  set A := imageSeedAux 0 0 P with hA2
  set w := P.length + 17 with hw
  have hwle : w ≤ 1017 := by omega
  rcases Nat.lt_or_ge s1 s2 with hlt | hge
  · have hle : A + (48 + s1) * w ≤ A + (48 + s2) * w := by nlinarith
    have hdvd : 1000003 ∣ (A + (48 + s2) * w) - (A + (48 + s1) * w) :=
      (Nat.modEq_iff_dvd' hle).mp heq
    have hsub : (A + (48 + s2) * w) - (A + (48 + s1) * w) = (s2 - s1) * w := by
      have : (48 + s2) * w = (48 + s1) * w + (s2 - s1) * w := by
        rw [← Nat.add_mul]
        congr 1
        omega
      omega
    rw [hsub] at hdvd
    have hpos : 0 < (s2 - s1) * w := by
      have hd : 0 < s2 - s1 := by omega
      have hw17 : 17 ≤ w := by omega
      nlinarith
    have hge2 := Nat.le_of_dvd hpos hdvd
    have hbound : (s2 - s1) * w ≤ 9 * 1017 := Nat.mul_le_mul (by omega) hwle
    omega
  · have hlt : s2 < s1 := by omega
    have hle : A + (48 + s2) * w ≤ A + (48 + s1) * w := by nlinarith
    have hdvd : 1000003 ∣ (A + (48 + s1) * w) - (A + (48 + s2) * w) :=
      (Nat.modEq_iff_dvd' hle).mp heq.symm
    have hsub : (A + (48 + s1) * w) - (A + (48 + s2) * w) = (s1 - s2) * w := by
      have : (48 + s1) * w = (48 + s2) * w + (s1 - s2) * w := by
        rw [← Nat.add_mul]
        congr 1
        omega
      omega
    rw [hsub] at hdvd
    have hpos : 0 < (s1 - s2) * w := by
      have hd : 0 < s1 - s2 := by omega
      have hw17 : 17 ≤ w := by omega
      nlinarith
    have hge2 := Nat.le_of_dvd hpos hdvd
    have hbound : (s1 - s2) * w ≤ 9 * 1017 := Nat.mul_le_mul (by omega) hwle
    omega

/-- Witness for C7's amended theorem: fid 1 with salts 0 and 1. -/
theorem imageSeedHash_small_salts_distinct_witness :
    imageSeedHash 1 0 ≠ imageSeedHash 1 1 :=
  imageSeedHash_small_salts_distinct 1 0 1 (by decide) (by decide) (by decide) (by decide)

/-! Determinism of the prompt-generation pipeline. -/

lemma determineClinkerPhase_congr (u v : NeynarUser) (hsc : u.score = v.score)
    (hns : u.neynar_user_score = v.neynar_user_score)
    (hfol : u.follower_count = v.follower_count) :
    determineClinkerPhase u = determineClinkerPhase v := by
  unfold determineClinkerPhase effectiveScore
  rw [hsc, hns, hfol]

/-- C1: the prompt-generation pipeline is a pure function of the profile
fields it reads plus the salt.  Two profiles agreeing on fid, username,
display name, follower and following counts, power badge and score fields
yield byte-identical Clinker prompt text, an identical (eye, stone, accent)
palette, an identical Carplet design spec (primary/secondary/accent palette
included) for the same traits and interests, and the same salted image seed
for the same salt.  In particular two calls on the identical (profile, salt)
pair agree; no other input is consulted. -/
theorem generate_deterministic (u v : NeynarUser) (traits interests : List String)
    (salt : Nat)
    (hfid : u.fid = v.fid) (hun : u.username = v.username)
    (hdn : u.display_name = v.display_name)
    (hfol : u.follower_count = v.follower_count)
    (hfol2 : u.following_count = v.following_count)
    (hpb : u.power_badge = v.power_badge)
    (hsc : u.score = v.score)
    (hns : u.neynar_user_score = v.neynar_user_score) :
    generateClinkerPrompt u = generateClinkerPrompt v ∧
    clinkerPalette u = clinkerPalette v ∧
    deriveCarpletDesignSpec u traits interests = deriveCarpletDesignSpec v traits interests ∧
    imageSeedHash u.fid salt = imageSeedHash v.fid salt := by
  have hph := determineClinkerPhase_congr u v hsc hns hfol
  refine ⟨?_, ?_, ?_, by rw [hfid]⟩ <;>
    simp only [generateClinkerPrompt, clinkerPalette, clinkerEyeColor, clinkerStoneColor,
      clinkerAccentColor, clinkerEyeHue, clinkerEyeSat, clinkerEyeLight, clinkerStoneHue,
      clinkerStoneSat, clinkerStoneLight, clinkerAccentHue, clinkerAccentSat,
      clinkerAccentLight, clinkerBaseHue, clinkerHueVariation, clinkerSeed, clinkerSeed2,
      clinkerSeed3, clinkerSeedStr, surfacePatternOf, uniqueFeatureOf, personalityOf,
      bodyShapeOf, eyeShapeOf, auraStyleOf, patternIndexOf, featureIndexOf,
      expressionIndexOf, proportionIndexOf, eyeShapeIndexOf, auraIndexOf,
      clinkerPhaseDescription, deriveCarpletDesignSpec, carpletBackgroundHex,
      carpletPrimaryHex, carpletSecondaryHex, carpletAccentHex, carpletBaseHue,
      carpletSecondaryHue, carpletAccentHue, carpletSaturation, carpletLightness,
      carpletInfluence, carpletBgHueOffset, carpletSeed, carpletSeedStr,
      hph, hfid, hun, hdn, hfol, hfol2, hpb]

/-- Witness for C1: both calls at the concrete profile `aliceProfile` (with
empty traits and salt 0) agree. -/
theorem generate_deterministic_witness :
    generateClinkerPrompt aliceProfile = generateClinkerPrompt aliceProfile ∧
    clinkerPalette aliceProfile = clinkerPalette aliceProfile ∧
    deriveCarpletDesignSpec aliceProfile [] [] = deriveCarpletDesignSpec aliceProfile [] [] ∧
    imageSeedHash aliceProfile.fid 0 = imageSeedHash aliceProfile.fid 0 :=
  generate_deterministic aliceProfile aliceProfile [] [] 0 rfl rfl rfl rfl rfl rfl rfl rfl

/-! The `Clinkers` ERC721 contract (`contracts/Clinkers.sol`).  A revert
aborts the transaction, so `mint` returns `Except`: on `error` no state
change takes effect (the caller keeps the pre-state).  The ERC721
`_safeMint` receiver hook is outside this state model. -/

/-- Revert reasons of `mint` (the `MetadataFrozen` string revert included). -/
inductive MintRevert where
  | LevelNotAllowed
  | IncorrectFee
  | MaxSupplyExceeded
  | InvalidFid
  | FidAlreadyMinted
  | MetadataFrozen
deriving DecidableEq, Repr

/-- Contract storage relevant to minting; addresses are opaque naturals. -/
structure ClinkersState where
  mintFee : Nat
  totalSupply : Nat
  fidMinted : Nat → Bool
  fidToMinter : Nat → Nat
  levelOf : Nat → Nat
  tokenURIOf : Nat → String
  ownerOf : Nat → Option Nat
  metadataFrozen : Bool

/-- Maximum supply constant. -/
def MAX_SUPPLY : Nat := 10000

/-- The `mint` function: guards in source order, then the state updates of a
successful mint (mark the FID minted, record minter, set level, bump supply,
assign token ownership and URI). -/
def mint (st : ClinkersState) (sender fid : Nat) (metadataURI : String)
    (initialLevel : Nat) (value : Nat) : Except MintRevert ClinkersState :=
  if initialLevel > 3 then .error .LevelNotAllowed
  else if value ≠ st.mintFee then .error .IncorrectFee
  else if st.totalSupply ≥ MAX_SUPPLY then .error .MaxSupplyExceeded
  else if fid = 0 then .error .InvalidFid
  else if st.fidMinted fid then .error .FidAlreadyMinted
  else if st.metadataFrozen then .error .MetadataFrozen
  else .ok { st with
    fidMinted := fun f => if f = fid then true else st.fidMinted f
    fidToMinter := fun f => if f = fid then sender else st.fidToMinter f
    levelOf := fun f => if f = fid then initialLevel else st.levelOf f
    totalSupply := st.totalSupply + 1
    ownerOf := fun f => if f = fid then some sender else st.ownerOf f
    tokenURIOf := fun f => if f = fid then metadataURI else st.tokenURIOf f }

/-- Whether a mint call succeeded. -/
def mintOk (r : Except MintRevert ClinkersState) : Bool :=
  match r with
  | .ok _ => true
  | .error _ => false

lemma mint_ok_iff (st : ClinkersState) (sender fid : Nat) (uri : String)
    (lvl val : Nat) :
    mintOk (mint st sender fid uri lvl val) = true ↔
      (lvl ≤ 3 ∧ val = st.mintFee ∧ st.totalSupply < MAX_SUPPLY ∧ fid ≠ 0 ∧
        st.fidMinted fid = false ∧ st.metadataFrozen = false) := by
  unfold mint mintOk
  split_ifs <;> simp_all

/-- An all-zero fresh state with a given fee. -/
def freshState (fee : Nat) : ClinkersState :=
  ⟨fee, 0, fun _ => false, fun _ => 0, fun _ => 0, fun _ => "", fun _ => none, false⟩

/-- A state in which FID 7 is already minted. -/
def mintedState7 : ClinkersState :=
  ⟨400000000000000, 1, fun f => f = 7, fun _ => 0, fun _ => 0, fun _ => "",
    fun _ => none, false⟩

/-- C9 (counterexample): a mint with the exact fee and a never-minted
identifier is still rejected — FID 0 reverts `InvalidFid` — so "rejected
exactly when already minted or fee incorrect" fails on the code. -/
theorem mint_rejects_more :
    mint (freshState 400000000000000) 5 0 "uri" 0 400000000000000
      = .error .InvalidFid ∧
    (freshState 400000000000000).fidMinted 0 = false ∧
    (freshState 400000000000000).mintFee = 400000000000000 := by
  exact ⟨rfl, rfl, rfl⟩

/-- C9 (amended): `mint` succeeds exactly when the level is admissible, the
payment equals `mintFee`, the supply cap is not reached, the FID is nonzero
and not yet minted, and metadata is not frozen; a previously-minted FID or a
wrong payment always reverts (the revert discards all state changes); and a
successful mint marks the FID minted, so any second mint of that FID
reverts. -/
theorem mint_spec (st : ClinkersState) (sender fid : Nat) (uri : String)
    (lvl val : Nat) :
    (mintOk (mint st sender fid uri lvl val) = true ↔
      (lvl ≤ 3 ∧ val = st.mintFee ∧ st.totalSupply < MAX_SUPPLY ∧ fid ≠ 0 ∧
        st.fidMinted fid = false ∧ st.metadataFrozen = false)) ∧
    (st.fidMinted fid = true → mintOk (mint st sender fid uri lvl val) = false) ∧
    (val ≠ st.mintFee → mintOk (mint st sender fid uri lvl val) = false) ∧
    (∀ st', mint st sender fid uri lvl val = .ok st' →
      st'.fidMinted fid = true ∧
      ∀ sender2 uri2 lvl2 val2,
        mintOk (mint st' sender2 fid uri2 lvl2 val2) = false) := by
  refine ⟨mint_ok_iff st sender fid uri lvl val, ?_, ?_, ?_⟩
  · intro hm
    cases hok : mintOk (mint st sender fid uri lvl val) with
    | false => rfl
    | true =>
      have := (mint_ok_iff st sender fid uri lvl val).mp hok
      rw [hm] at this
      simp at this
  · intro hv
    cases hok : mintOk (mint st sender fid uri lvl val) with
    | false => rfl
    | true =>
      have := (mint_ok_iff st sender fid uri lvl val).mp hok
      exact absurd this.2.1 hv
  · intro st' hok
    have hst' : st'.fidMinted fid = true := by
      unfold mint at hok
      split_ifs at hok <;> first
        | (simp only [Except.error.injEq] at hok)
        | (rw [Except.ok.injEq] at hok
           rw [← hok]
           simp)
    refine ⟨hst', ?_⟩
    intro sender2 uri2 lvl2 val2
    cases hok2 : mintOk (mint st' sender2 fid uri2 lvl2 val2) with
    | false => rfl
    | true =>
      have hcond := (mint_ok_iff st' sender2 fid uri2 lvl2 val2).mp hok2
      rw [hst'] at hcond
      simp at hcond

/-- Witness for C9's amended theorem: minting the already-minted FID 7
fails, by the already-minted clause at a concrete state. -/
theorem mint_spec_witness :
    mintOk (mint mintedState7 2 7 "uri" 0 400000000000000) = false :=
  (mint_spec mintedState7 2 7 "uri" 0 400000000000000).2.1 rfl

/-- Whether a mint call reverted specifically with `LevelNotAllowed`. -/
def isLevelNotAllowed (r : Except MintRevert ClinkersState) : Bool :=
  match r with
  | .error .LevelNotAllowed => true
  | _ => false

/-- C10: `determineClinkerPhase` always returns a phase in {1,2,3,4}; the
frontend passes `phase - 1` as the contract's `initialLevel`, so the value
supplied to `mint` is always ≤ 3 and the `LevelNotAllowed` revert branch is
unreachable from the reference frontend flow, whatever the contract state,
sender, fid, URI or payment. -/
theorem frontend_level_admissible (u : NeynarUser) (st : ClinkersState)
    (sender fid : Nat) (uri : String) (val : Nat) :
    1 ≤ (determineClinkerPhase u).phase ∧ (determineClinkerPhase u).phase ≤ 4 ∧
    (determineClinkerPhase u).phase - 1 ≤ 3 ∧
    isLevelNotAllowed
      (mint st sender fid uri ((determineClinkerPhase u).phase - 1) val) = false := by
  have hp := phase_in_range u
  refine ⟨hp.1, hp.2, by omega, ?_⟩
  unfold mint isLevelNotAllowed
  rw [if_neg (by omega)]
  split_ifs <;> rfl

end Clinkers
